import Mathlib

/-
Verification development for the dexscreener terminal dashboard (main.py).

The Python source is shallowly embedded:
  * decoded JSON payloads become the inductive type `JSON`;
  * Python exceptions relevant to the data path (`KeyError`, `ValueError`,
    `TypeError`, `AttributeError`) become `PyErr`, and fallible code returns
    `Except PyErr _`;
  * Python floats become `PyFloat`: an exact rational, an infinity, or NaN
    (a NaN's sign bit is not tracked — CPython's float formatting never
    prints it); `float(...)` on decoded values becomes `pyFloat`, with
    string parsing modelled by `pyParseFloat` (optional sign, digit groups
    with the single underscores Python allows between digits, optional
    fraction and exponent, and the case-insensitive `inf` / `infinity` /
    `nan` spellings);
  * `f"...:.Nf"` fixed-point formatting becomes `formatFloat` /
    `formatSignedF` — `inf` and `nan` print the way CPython prints them,
    finite values with round-half-up at the last digit (binary double
    rounding is not modelled — no claim depends on rounding ties);
  * the curses surface becomes a write log plus an error for the cases in
    which `addstr` returns ERR (start position outside the window, or a
    write that runs into the bottom-right cell of the screen).
-/

set_option linter.unusedVariables false

/-- A decoded JSON value, as produced by `response.json()`. -/
inductive JSON where
  | null
  | bool (b : Bool)
  | num (q : Rat)
  | str (s : String)
  | arr (xs : List JSON)
  | obj (fields : List (String × JSON))

/-- The Python exceptions the data path of `main.py` can raise and branch on. -/
inductive PyErr where
  | keyError
  | valueError
  | typeError
  | attributeError
deriving DecidableEq

/-- Lookup in an association list with last-binding-wins semantics: a Python
dict built by successive insertion keeps the last value written for a key
(both the dict comprehension in `getTokensInfo` and JSON object decoding
behave this way). -/
def lookupLast {α : Type} (fields : List (String × α)) (k : String) : Option α :=
  (fields.reverse.find? (fun p => p.1 == k)).map (fun p => p.2)

/-- `.lower()` over the character data (ASCII-adequate for the addresses and
keys this program handles); written listwise so terms evaluate. -/
def strLower (s : String) : String :=
  String.mk (s.data.map Char.toLower)

/-- The whitespace stripping `float()` performs on its string argument. -/
def strTrim (s : String) : String :=
  String.mk (((s.data.dropWhile Char.isWhitespace).reverse.dropWhile
    Char.isWhitespace).reverse)

/-- Python slicing `s[:n]`. -/
def strTake (s : String) (n : Nat) : String :=
  String.mk (s.data.take n)

/-- Python slicing `s[:-n]`. -/
def strDropRight (s : String) (n : Nat) : String :=
  String.mk (s.data.take (s.data.length - n))

/-- `x[k]` for a string key `k`: on a dict it is a key lookup (`KeyError` when
missing); on every other decoded value it raises `TypeError`. -/
def objGet (j : JSON) (k : String) : Except PyErr JSON :=
  match j with
  | .obj fields =>
    match lookupLast fields k with
    | some v => .ok v
    | none => .error .keyError
  | _ => .error .typeError

/-- Iterating `data['pairs']` elementwise. A non-array value either is not
iterable or yields non-dict elements whose later subscripting raises; both
roads end in an uncaught exception and the observable result (the whole
batch replaced by absent placeholders) is the same, so the embedding raises
here. -/
def asArr (j : JSON) : Except PyErr (List JSON) :=
  match j with
  | .arr xs => .ok xs
  | _ => .error .typeError

/-- `.lower()` on a decoded value: defined on strings, `AttributeError`
otherwise. -/
def lowerStr (j : JSON) : Except PyErr String :=
  match j with
  | .str s => .ok (strLower s)
  | _ => .error .attributeError

/-- Decimal digits of `num / den` (with `num < den`), at most `fuel` of them,
stopping when the remainder is exhausted. -/
def decDigitsAux (fuel : Nat) (num den : Nat) : List Char :=
  match fuel with
  | 0 => []
  | f + 1 =>
    if num = 0 then []
    else Nat.digitChar (num * 10 / den) :: decDigitsAux f (num * 10 % den) den

/-- Approximation of Python `str` on a decoded number: integers print without
a decimal point (JSON integers decode to `int`), other rationals print as a
sign, integer part and up to 20 fractional digits. Exact float `repr` is not
modelled; no claim inspects the digits of a numeric `str`. -/
def ratRepr (q : Rat) : String :=
  if q.den = 1 then toString q.num
  else
    let sign := if q < 0 then "-" else ""
    let n := q.num.natAbs
    let ds := decDigitsAux 20 (n % q.den) q.den
    sign ++ toString (n / q.den) ++ "." ++ String.mk (if ds.isEmpty then ['0'] else ds)

/-- Python `repr` of a decoded value (used by `str` on containers). String
escaping inside quotes is not modelled; no claim inspects container text. -/
def pyRepr : JSON → String
  | .null => "None"
  | .bool b => if b then "True" else "False"
  | .num q => ratRepr q
  | .str s => "'" ++ s ++ "'"
  | .arr xs =>
    "[" ++ String.intercalate ", " (xs.attach.map (fun x => pyRepr x.1)) ++ "]"
  | .obj fs =>
    "\x7b" ++
      String.intercalate ", "
        (fs.attach.map (fun f => "'" ++ f.1.1 ++ "': " ++ pyRepr f.1.2)) ++
      "\x7d"
decreasing_by
  · simp only [JSON.arr.sizeOf_spec]
    have := List.sizeOf_lt_of_mem x.2
    omega
  · simp only [JSON.obj.sizeOf_spec]
    have h1 := List.sizeOf_lt_of_mem f.2
    have h2 : sizeOf f.1.2 < sizeOf f.1 := by
      obtain ⟨a, b⟩ := f.1
      simp only [Prod.mk.sizeOf_spec]
      omega
    omega

/-- Python `str` of a decoded value. -/
def pyStr : JSON → String
  | .str s => s
  | j => pyRepr j

/-- Value of a (non-empty) run of decimal digit characters. -/
def digitsToNat (cs : List Char) : Nat :=
  cs.foldl (fun acc c => acc * 10 + (c.toNat - 48)) 0

/-- A Python float value: a finite (exactly represented) value, one of the
two infinities, or NaN. The sign bit of a NaN is not tracked: CPython's
float formatting never prints it. -/
inductive PyFloat where
  | finite (q : Rat)
  | posInf
  | negInf
  | nan
deriving DecidableEq

/-- Continuation of a digit group: further digits, with a single underscore
permitted between two digits (Python's numeric-literal rule for `float`).
Returns the digits consumed and the unconsumed input. -/
def dgLoop : List Char → List Char × List Char
  | [] => ([], [])
  | c :: cs =>
    if c.isDigit then
      let (ds, r) := dgLoop cs
      (c :: ds, r)
    else if c = '_' then
      match cs with
      | c2 :: cs2 =>
        if c2.isDigit then
          let (ds, r) := dgLoop cs2
          (c2 :: ds, r)
        else ([], c :: cs)
      | [] => ([], [c])
    else ([], c :: cs)

/-- A digit group: at least one digit, underscores only between digits. -/
def digitGroup : List Char → Option (List Char × List Char)
  | c :: cs =>
    if c.isDigit then
      let (ds, r) := dgLoop cs
      some (c :: ds, r)
    else none
  | [] => none

/-- Mantissa of a float literal: `digits`, `digits.digits`, `digits.` or
`.digits`, with at least one digit present and underscores allowed inside
each digit group. Returns its value and the unconsumed input. -/
def parseMantissa (cs : List Char) : Option (Rat × List Char) :=
  let (ip, r1) :=
    match digitGroup cs with
    | some (ds, r) => (ds, r)
    | none => ([], cs)
  match r1 with
  | '.' :: r2 =>
    let (fp, r3) :=
      match digitGroup r2 with
      | some (ds, r) => (ds, r)
      | none => ([], r2)
    if ip.isEmpty ∧ fp.isEmpty then none
    else some ((digitsToNat ip : Rat) + (digitsToNat fp : Rat) / ((10 : Rat) ^ fp.length), r3)
  | _ => if ip.isEmpty then none else some ((digitsToNat ip : Rat), r1)

/-- Optional exponent suffix `e`/`E`, optional sign, then a digit group
ending the input. -/
def parseExponent (cs : List Char) : Option Rat :=
  match cs with
  | [] => some 1
  | 'e' :: r => parseExponentDigits r
  | 'E' :: r => parseExponentDigits r
  | _ => none
where
  parseExponentDigits (r : List Char) : Option Rat :=
    match r with
    | '+' :: ds => parseExponentPos ds
    | '-' :: ds => parseExponentNeg ds
    | ds => parseExponentPos ds
  parseExponentPos (ds : List Char) : Option Rat :=
    match digitGroup ds with
    | some (gs, []) => some ((10 : Rat) ^ digitsToNat gs)
    | _ => none
  parseExponentNeg (ds : List Char) : Option Rat :=
    match digitGroup ds with
    | some (gs, []) => some (1 / (10 : Rat) ^ digitsToNat gs)
    | _ => none

/-- Model of Python `float(s)` on strings: surrounding whitespace stripped,
optional sign, then either one of the case-insensitive special spellings
`inf` / `infinity` / `nan` or a decimal mantissa with an optional exponent.
`None` models `ValueError`. -/
def pyParseFloat (s : String) : Option PyFloat :=
  let cs := (strTrim s).data
  let (neg, rest) :=
    match cs with
    | '+' :: r => (false, r)
    | '-' :: r => (true, r)
    | r => (false, r)
  let low := rest.map Char.toLower
  if low = "inf".data ∨ low = "infinity".data then
    some (if neg then .negInf else .posInf)
  else if low = "nan".data then some .nan
  else
    match parseMantissa rest with
    | none => none
    | some (m, r1) =>
      match parseExponent r1 with
      | none => none
      | some e => some (.finite ((if neg then (-1 : Rat) else 1) * m * e))

/-- Model of Python `float(x)` on a decoded JSON value: numbers (and bools)
convert, strings are parsed (`ValueError` on failure), everything else
raises `TypeError`. -/
def pyFloat (j : JSON) : Except PyErr PyFloat :=
  match j with
  | .num q => .ok (.finite q)
  | .bool b => .ok (.finite (if b then 1 else 0))
  | .str s =>
    match pyParseFloat s with
    | some v => .ok v
    | none => .error .valueError
  | .null => .error .typeError
  | .arr _ => .error .typeError
  | .obj _ => .error .typeError

/-- `⌊x + 1/2⌋` as a natural number: the round-to-nearest used when printing
a non-negative value with a fixed number of digits. -/
def roundHalfUp (x : Rat) : Nat :=
  (Rat.floor (x + 1 / 2)).toNat

/-- Exactly `d` decimal digits of `n` (low digit last, zero-padded). -/
def natDigits : Nat → Nat → List Char
  | 0, _ => []
  | d + 1, n => natDigits d (n / 10) ++ [Nat.digitChar (n % 10)]

/-- Model of `f"{q:.df}"`: fixed-point with `d` digits after the point. -/
def formatFixed (d : Nat) (q : Rat) : String :=
  let scaled := roundHalfUp (|q| * (10 : Rat) ^ d)
  (if q < 0 then "-" else "") ++ toString (scaled / 10 ^ d) ++
    (if d = 0 then "" else "." ++ String.mk (natDigits d (scaled % 10 ^ d)))

/-- Model of `f"{q:+.2f}"`: explicit sign, two digits after the point. -/
def formatSigned2 (q : Rat) : String :=
  let scaled := roundHalfUp (|q| * 100)
  (if 0 ≤ q then "+" else "-") ++ toString (scaled / 100) ++ "." ++
    String.mk (natDigits 2 (scaled % 100))

/-- Model of `f"{v:.df}"` on a Python float: CPython prints `inf`, `-inf`
and `nan` for the non-finite values, with no fraction digits. -/
def formatFloat (d : Nat) : PyFloat → String
  | .finite q => formatFixed d q
  | .posInf => "inf"
  | .negInf => "-inf"
  | .nan => "nan"

/-- Model of `f"{v:+.2f}"` on a Python float: the `+` flag gives `+inf`,
`-inf` and `+nan` (a NaN's sign bit is never printed). -/
def formatSignedF : PyFloat → String
  | .finite q => formatSigned2 q
  | .posInf => "+inf"
  | .negInf => "-inf"
  | .nan => "+nan"

/-- `value >= 0` on a Python float: true for `+inf`, false for `-inf`, and
false for NaN (every comparison with NaN is false). -/
def pyGe0 : PyFloat → Bool
  | .finite q => decide (0 ≤ q)
  | .posInf => true
  | .negInf => false
  | .nan => false

/-- Division by the literal `1000000` in the FDV display computation. -/
def pyDivMillion : PyFloat → PyFloat
  | .finite q => .finite (q / 1000000)
  | .posInf => .posInf
  | .negInf => .negInf
  | .nan => .nan

/-- The renderer-ready record `getTokensInfo` builds per resolved address
(`info` in the source). `symbol` and `url` are stored as whatever decoded
value the payload held; `priceUsd` is the parsed float; `fdv` is the
pre-formatted `$…M` display string; `priceChange` is the three-entry dict
of strings keyed `24h`, `1h`, `5m`. -/
structure TokenInfo where
  symbol : JSON
  priceUsd : PyFloat
  url : JSON
  fdv : String
  priceChange : List (String × String)

/-- Lines 49-53 of the source: the four required extractions in program
order — `pair['baseToken']['symbol']`, `float(pair['priceUsd'])`,
`pair['url']`, and `f"${float(pair['fdv'])/1000000:.1f}M"`. -/
def requiredInfo (pair : JSON) : Except PyErr (JSON × PyFloat × JSON × String) :=
  match objGet pair "baseToken" with
  | .error e => .error e
  | .ok baseToken =>
    match objGet baseToken "symbol" with
    | .error e => .error e
    | .ok symbol =>
      match objGet pair "priceUsd" with
      | .error e => .error e
      | .ok priceJ =>
        match pyFloat priceJ with
        | .error e => .error e
        | .ok priceUsd =>
          match objGet pair "url" with
          | .error e => .error e
          | .ok url =>
            match objGet pair "fdv" with
            | .error e => .error e
            | .ok fdvJ =>
              match pyFloat fdvJ with
              | .error e => .error e
              | .ok fdvV =>
                .ok (symbol, priceUsd, url, "$" ++ formatFloat 1 (pyDivMillion fdvV) ++ "M")

/-- Lines 55-63: `if 'priceChange' in pair` then
`str(price_change.get(key, '0'))` per horizon, else the all-`'0'` dict.
`pair` here is always a dict (its construction in the address map required a
successful `pair['baseToken']` lookup), so the non-dict fallback takes the
absent branch. A `priceChange` value that is not a dict makes `.get` raise
`AttributeError`, which no handler on the per-token path catches. -/
def changeEntries (pair : JSON) : Except PyErr (List (String × String)) :=
  match pair with
  | .obj fields =>
    match lookupLast fields "priceChange" with
    | some pc =>
      match pc with
      | .obj pcf =>
        .ok [("24h", pyStr ((lookupLast pcf "h24").getD (.str "0"))),
             ("1h", pyStr ((lookupLast pcf "h1").getD (.str "0"))),
             ("5m", pyStr ((lookupLast pcf "m5").getD (.str "0")))]
      | _ => .error .attributeError
    | none => .ok [("24h", "0"), ("1h", "0"), ("5m", "0")]
  | _ => .ok [("24h", "0"), ("1h", "0"), ("5m", "0")]

/-- The body of the inner `try` of `getTokensInfo` for one matched pair. -/
def tokenBody (pair : JSON) : Except PyErr TokenInfo :=
  match requiredInfo pair with
  | .error e => .error e
  | .ok (symbol, priceUsd, url, fdv) =>
    match changeEntries pair with
    | .error e => .error e
    | .ok pc => .ok ⟨symbol, priceUsd, url, fdv, pc⟩

/-- One iteration of the per-token loop: the address-map lookup plus the
inner `try`, whose `except (KeyError, ValueError)` appends `None`; any other
exception propagates to the batch-level handler. -/
def processToken (entries : List (String × JSON)) (token : String) :
    Except PyErr (Option TokenInfo) :=
  match lookupLast entries (strLower token) with
  | none => .ok none
  | some pair =>
    match tokenBody pair with
    | .ok info => .ok (some info)
    | .error .keyError => .ok none
    | .error .valueError => .ok none
    | .error e => .error e

/-- The whole per-token loop, accumulating `results` until an uncaught
exception aborts it. -/
def processAll (entries : List (String × JSON)) :
    List String → Except PyErr (List (Option TokenInfo))
  | [] => .ok []
  | t :: ts =>
    match processToken entries t with
    | .error e => .error e
    | .ok r =>
      match processAll entries ts with
      | .error e => .error e
      | .ok rs => .ok (r :: rs)

/-- The dict comprehension of lines 41-42: key each pair by
`pair['baseToken']['address'].lower()`, in payload order (so that
`lookupLast` reproduces the overwrite-on-duplicate behaviour of the dict). -/
def buildEntries : List JSON → Except PyErr (List (String × JSON))
  | [] => .ok []
  | p :: ps =>
    match objGet p "baseToken" with
    | .error e => .error e
    | .ok bt =>
      match objGet bt "address" with
      | .error e => .error e
      | .ok ad =>
        match lowerStr ad with
        | .error e => .error e
        | .ok s =>
          match buildEntries ps with
          | .error e => .error e
          | .ok rest => .ok ((s, p) :: rest)

/-- `data['pairs']` iterated into the address-keyed pair map. -/
def pairsEntries (d : JSON) : Except PyErr (List (String × JSON)) :=
  match objGet d "pairs" with
  | .error e => .error e
  | .ok pj =>
    match asArr pj with
    | .error e => .error e
    | .ok ps => buildEntries ps

/-- `getTokensInfo(tokens)` with the remote call's outcome passed in:
`none` models `dexScreenerRequest` returning `None` (transport error,
non-200 status, undecodable body). Any exception escaping the map build or
the per-token loop is caught by the batch-level handler, which replaces the
batch by `[None] * len(tokens)`. -/
def getTokensInfo (tokens : List String) (resp : Option JSON) :
    List (Option TokenInfo) :=
  match resp with
  | none => List.replicate tokens.length none
  | some d =>
    match pairsEntries d with
    | .error _ => List.replicate tokens.length none
    | .ok entries =>
      match processAll entries tokens with
      | .error _ => List.replicate tokens.length none
      | .ok results => results

/-- The slicing loop of `chunk_list`, written with a structural recursion
bound: for step `n ≥ 1` the loop makes at most `lst.length` iterations, so a
fuel of `lst.length` reproduces it exactly (see `chunkGo_congr`). -/
def chunkGo {α : Type} (n : Nat) : Nat → List α → List (List α)
  | _, [] => []
  | 0, _ => []
  | f + 1, lst => lst.take n :: chunkGo n f (lst.drop n)

/-- `chunk_list(lst, n)`: consecutive slices `lst[i:i+n]`. -/
def chunk_list {α : Type} (lst : List α) (n : Nat) : List (List α) :=
  chunkGo n lst.length lst

/-- The chunk containing position `30 * j`, `[]` past the end. -/
def chunkAt (addys : List String) (j : Nat) : List String :=
  (chunk_list addys 30).getD j []

/-- The loop of `getInfoFromAddys`: one `getTokensInfo` call per chunk,
results concatenated in chunk order. `fetch` is the network oracle giving
each chunk's decoded response (or `none` on a failed lookup). -/
def runChunks (fetch : List String → Option JSON) :
    List (List String) → List (Option TokenInfo)
  | [] => []
  | c :: cs => getTokensInfo c (fetch c) ++ runChunks fetch cs

/-- `getInfoFromAddys(addys)`: chunk into batches of at most 30 and merge. -/
def getInfoFromAddys (fetch : List String → Option JSON) (addys : List String) :
    List (Option TokenInfo) :=
  runChunks fetch (chunk_list addys 30)

/-- A batch-level lookup failure: the remote call returned no data, or the
decoded payload's top level is malformed (no `pairs` array, or entries on
which building the address map raises). -/
def batchFailed (resp : Option JSON) : Bool :=
  match resp with
  | none => true
  | some d =>
    match pairsEntries d with
    | .ok _ => false
    | .error _ => true

/-- `getColW`: the fixed base vector `[10,10,12,6,6,6]` (total 50) scaled by
the terminal width. `int(base * (w / 50))` is embedded as the exact
`base * w / 50` (floor); Python computes the scale in binary floating point,
which agrees on the floor except at double-rounding corners that no claim
depends on. -/
def getColW (w : Nat) : List Nat :=
  [10, 10, 12, 6, 6, 6].map (fun b => b * w / 50)

/-- A curses text attribute: the default style or a `color_pair`. -/
inductive Attr where
  | default
  | colorPair (n : Nat)

/-- One successful `addstr` call: row, column, text, attribute. -/
structure Write where
  row : Int
  col : Int
  text : String
  attr : Attr

/-- `curses.COLOR_GREEN` (the pair index the program initializes for it). -/
def COLOR_GREEN : Nat := 2

/-- `curses.COLOR_RED`. -/
def COLOR_RED : Nat := 1

/-- `stdscr.addstr(y, x, s, a)` on an `hh × ww` window: raises `curses.error`
when the start position lies outside the window or when the write runs into
the bottom-right cell (after which the cursor cannot advance); otherwise the
write is appended to the log. ncurses wraps long writes onto following rows,
so only writes reaching the last cell fail. -/
def addstrE (hh ww : Nat) (log : List Write) (y x : Int) (s : String) (a : Attr) :
    Except Unit (List Write) :=
  if y < 0 ∨ x < 0 ∨ (hh : Int) ≤ y ∨ (ww : Int) ≤ x ∨
      (hh : Int) * ww ≤ y * ww + x + s.length then
    .error ()
  else
    .ok (log ++ [⟨y, x, s, a⟩])

/-- Python `c * n` for a character: empty when `n ≤ 0`. -/
def repChar (c : Char) (n : Int) : String :=
  if n ≤ 0 then "" else String.mk (List.replicate n.toNat c)

/-- The `for y in range(1, h-1)` loop of `drawFrame`: both vertical border
characters per row. `count` is the number of remaining iterations —
`range(1, h-1)` has `h - 2` elements (none when `h ≤ 2`), so the loop is
entered with `count = hh - 2` and `y = 1`. -/
def drawSideLines (hh ww : Nat) : Nat → Nat → List Write → Except Unit (List Write)
  | 0, _, log => .ok log
  | count + 1, y, log =>
    match addstrE hh ww log y 0 "│" .default with
    | .error e => .error e
    | .ok log1 =>
      match addstrE hh ww log1 y ((ww : Int) - 1) "│" .default with
      | .error e => .error e
      | .ok log2 => drawSideLines hh ww count (y + 1) log2

/-- `drawFrame`: border, separator under the title, bottom line with the
footer, and the one guarded write for the bottom-right corner — the only
`try/except curses.error` in the draw path. -/
def drawFrame (hh ww : Nat) (log : List Write) : Except Unit (List Write) :=
  match addstrE hh ww log 0 0 ("┌" ++ repChar '─' ((ww : Int) - 2) ++ "┐") .default with
  | .error e => .error e
  | .ok log1 =>
    match drawSideLines hh ww (hh - 2) 1 log1 with
    | .error e => .error e
    | .ok log2 =>
      match addstrE hh ww log2 2 0 ("│" ++ repChar '─' ((ww : Int) - 2) ++ "│") .default with
      | .error e => .error e
      | .ok log3 =>
        let footer := " Press 'q' to exit "
        let footerPos : Int := (ww : Int) - footer.length - 2
        let bottomLine :=
          "└" ++ repChar '─' (footerPos - 1) ++ footer ++
            repChar '─' ((ww : Int) - footerPos - footer.length - 2) ++ "┘"
        match addstrE hh ww log3 ((hh : Int) - 1) 0 (strDropRight bottomLine 1) .default with
        | .error e => .error e
        | .ok log4 =>
          match addstrE hh ww log4 ((hh : Int) - 1) ((ww : Int) - 1) "┘" .default with
          | .ok log5 => .ok log5
          | .error _ => .ok log4

/-- The six header labels. -/
def headersList : List String :=
  ["$TOKEN", "FDV", "PRICE(USD)", "24h", "1h", "5m"]

/-- The `for i, header in enumerate(headers)` loop: each label truncated to
its scaled column width, `colStart` advanced by that width. The empty-widths
case models the `IndexError` an overlong header list would raise; both lists
always have six entries. -/
def drawHeaderCells (hh ww : Nat) : List String → List Nat → Int → List Write →
    Except Unit (List Write)
  | [], _, _, log => .ok log
  | _ :: _, [], _, _ => .error ()
  | hd :: hs, cw :: cws, colStart, log => do
    let log1 ← addstrE hh ww log 3 colStart (strTake hd cw) .default
    drawHeaderCells hh ww hs cws (colStart + cw) log1

/-- `drawHeader`: centered title (whose column goes negative on a terminal
narrower than the title — Python floor division) then the six labels
starting at column 3. -/
def drawHeader (hh ww : Nat) (log : List Write) : Except Unit (List Write) := do
  let title := "Dexscreener-TUI"
  let titlePos : Int := ((ww : Int) - title.length).fdiv 2
  let log1 ← addstrE hh ww log 1 titlePos title .default
  drawHeaderCells hh ww headersList (getColW ww) 3 log1

/-- `'$' + token['symbol']`: string concatenation, `TypeError` (uncaught on
the draw path) when the stored symbol is not a string. -/
def pyStrAdd (pre : String) (j : JSON) : Except Unit String :=
  match j with
  | .str s => .ok (pre ++ s)
  | _ => .error ()

/-- `pc[key]` on the stored three-entry change dict (`KeyError`, uncaught on
the draw path, if absent). -/
def pcGet (entries : List (String × String)) (k : String) : Except Unit String :=
  match lookupLast entries k with
  | some v => .ok v
  | none => .error ()

/-- One percentage-change cell: `float(change)` then `f"{value:+.2f}%"`
colored green for `value >= 0` and red otherwise; on `ValueError`/`TypeError`
the literal `0.00%` in the default style. -/
def changeCell (s : String) : String × Attr :=
  match pyParseFloat s with
  | some v => (formatSignedF v ++ "%", .colorPair (if pyGe0 v then COLOR_GREEN else COLOR_RED))
  | none => ("0.00%", .default)

/-- The body of the data-row loop of `updateScreen` for one record: symbol,
FDV and price cells, then the three change cells. After each change cell,
`colStart` advances by `colW[3 if change == pc['24h'] else 4 if change ==
pc['1h'] else 5]` — a comparison of cell *values*, kept verbatim here. -/
def drawRow (hh ww : Nat) (row : Int) (t : TokenInfo) (log : List Write) :
    Except Unit (List Write) := do
  let colW := getColW ww
  let sym ← pyStrAdd "$" t.symbol
  let log1 ← addstrE hh ww log row 3 sym .default
  let col1 : Int := 3 + (colW.getD 0 0 : Nat)
  let log2 ← addstrE hh ww log1 row col1 t.fdv .default
  let col2 : Int := col1 + (colW.getD 1 0 : Nat)
  let log3 ← addstrE hh ww log2 row col2 ("$" ++ formatFloat 8 t.priceUsd) .default
  let col3 : Int := col2 + (colW.getD 2 0 : Nat)
  let c24 ← pcGet t.priceChange "24h"
  let c1 ← pcGet t.priceChange "1h"
  let c5 ← pcGet t.priceChange "5m"
  let log4 ← addstrE hh ww log3 row col3 (changeCell c24).1 (changeCell c24).2
  let col4 : Int := col3 +
    (colW.getD (if c24 = c24 then 3 else if c24 = c1 then 4 else 5) 0 : Nat)
  let log5 ← addstrE hh ww log4 row col4 (changeCell c1).1 (changeCell c1).2
  let col5 : Int := col4 +
    (colW.getD (if c1 = c24 then 3 else if c1 = c1 then 4 else 5) 0 : Nat)
  addstrE hh ww log5 row col5 (changeCell c5).1 (changeCell c5).2

/-- The data-row loop: absent records skipped silently, drawing stops before
the last two terminal rows (`if row >= h-2: break`, checked after the skip
and before drawing). -/
def drawRows (hh ww : Nat) (row : Nat) (data : List (Option TokenInfo))
    (log : List Write) : Except Unit (List Write) :=
  match data with
  | [] => .ok log
  | none :: rest => drawRows hh ww row rest log
  | some t :: rest =>
    if hh - 2 ≤ row then .ok log
    else
      match drawRow hh ww (row : Int) t log with
      | .error e => .error e
      | .ok log1 => drawRows hh ww (row + 1) rest log1

/-- `updateScreen`: clear (the log restarts empty), frame, header, data rows.
Errors escaping any unguarded draw call propagate out of this function, as
they do in the source. -/
def updateScreen (hh ww : Nat) (data : List (Option TokenInfo)) :
    Except Unit (List Write) :=
  match drawFrame hh ww [] with
  | .error e => .error e
  | .ok log1 =>
    match drawHeader hh ww log1 with
    | .error e => .error e
    | .ok log2 => drawRows hh ww 4 data log2

/-- Horizontal offset of column `k`: 3 plus the sum of the first `k` scaled
column widths. -/
def cellOffset (ww k : Nat) : Int :=
  3 + (((getColW ww).take k).sum : Nat)

/-- The snapshot the refresh loop computes in cycle `k`, when the network
behaves as `fetchSeq k` during that cycle. -/
def cycleSnap (fetchSeq : Nat → List String → Option JSON) (addys : List String)
    (k : Nat) : List (Option TokenInfo) :=
  getInfoFromAddys (fetchSeq k) addys

/-- The publication step of `apiThread`: `if newData is not None: data =
newData`. CPython executes the slot assignment as one bytecode under the
interpreter lock, so it is one atomic step here; the computed lists are
fresh per cycle and never mutated after publication. -/
def publishStep (newData : Option (List (Option TokenInfo)))
    (old : List (Option TokenInfo)) : List (Option TokenInfo) :=
  match newData with
  | some d => d
  | none => old

/-- States of the shared snapshot slot: initially the empty list (line
`data = []`), then one publication per completed refresh cycle. The reader
(`updateScreen`'s argument) always sees the slot's current value. -/
inductive SnapshotReachable (fetchSeq : Nat → List String → Option JSON)
    (addys : List String) : Nat → List (Option TokenInfo) → Prop where
  | init : SnapshotReachable fetchSeq addys 0 []
  | publish {k : Nat} {d : List (Option TokenInfo)} :
      SnapshotReachable fetchSeq addys k d →
      SnapshotReachable fetchSeq addys (k + 1)
        (publishStep (some (cycleSnap fetchSeq addys k)) d)

theorem chunkGo_congr {α : Type} (n : Nat) (hn : n ≠ 0) :
    ∀ (f f' : Nat) (lst : List α), lst.length ≤ f → lst.length ≤ f' →
      chunkGo n f lst = chunkGo n f' lst := by
  intro f
  induction f with
  | zero =>
    intro f' lst h h'
    have : lst = [] := List.eq_nil_of_length_eq_zero (by omega)
    subst this
    cases f' <;> rfl
  | succ f ih =>
    intro f' lst h h'
    cases lst with
    | nil => cases f' <;> rfl
    | cons a t =>
      cases f' with
      | zero => simp at h'
      | succ f' =>
        simp only [chunkGo]
        congr 1
        exact ih f' ((a :: t).drop n)
          (by simp only [List.length_drop, List.length_cons] at h ⊢; omega)
          (by simp only [List.length_drop, List.length_cons] at h' ⊢; omega)

theorem chunk_list_nil {α : Type} (n : Nat) : chunk_list ([] : List α) n = [] := rfl

theorem chunk_list_cons {α : Type} (lst : List α) (n : Nat) (h : lst ≠ [])
    (hn : n ≠ 0) : chunk_list lst n = lst.take n :: chunk_list (lst.drop n) n := by
  obtain ⟨a, t, rfl⟩ : ∃ a t, lst = a :: t := by
    cases lst with
    | nil => exact absurd rfl h
    | cons a t => exact ⟨a, t, rfl⟩
  show chunkGo n ((a :: t).length) (a :: t) = _
  simp only [List.length_cons, chunkGo]
  congr 1
  exact chunkGo_congr n hn t.length ((a :: t).drop n).length ((a :: t).drop n)
    (by simp only [List.length_drop, List.length_cons]; omega) (Nat.le_refl _)

theorem processAll_length (entries : List (String × JSON)) :
    ∀ (ts : List String) (rs : List (Option TokenInfo)),
      processAll entries ts = .ok rs → rs.length = ts.length := by
  intro ts
  induction ts with
  | nil =>
    intro rs h
    simp only [processAll] at h
    cases h
    rfl
  | cons t ts ih =>
    intro rs h
    simp only [processAll] at h
    cases hp : processToken entries t with
    | error e => rw [hp] at h; cases h
    | ok r =>
      rw [hp] at h
      cases ha : processAll entries ts with
      | error e => rw [ha] at h; cases h
      | ok rest =>
        rw [ha] at h
        cases h
        simp [ih rest ha]

theorem getTokensInfo_length (tokens : List String) (resp : Option JSON) :
    (getTokensInfo tokens resp).length = tokens.length := by
  cases resp with
  | none => simp [getTokensInfo]
  | some d =>
    simp only [getTokensInfo]
    cases hp : pairsEntries d with
    | error e => simp
    | ok entries =>
      cases ha : processAll entries tokens with
      | error e => simp [ha]
      | ok results => simp [ha, processAll_length entries tokens results ha]

theorem chunk_list_getD {α : Type} (n : Nat) (hn : 0 < n) :
    ∀ (j : Nat) (lst : List α),
      (chunk_list lst n).getD j [] = (lst.drop (n * j)).take n := by
  intro j
  induction j with
  | zero =>
    intro lst
    by_cases h : lst = []
    · subst h; simp [chunk_list_nil]
    · rw [chunk_list_cons lst n h (by omega)]
      simp
  | succ j ih =>
    intro lst
    by_cases h : lst = []
    · subst h; simp [chunk_list_nil]
    · rw [chunk_list_cons lst n h (by omega)]
      simp only [List.getD_cons_succ]
      rw [ih, List.drop_drop, Nat.mul_succ]
      congr 2
      omega

theorem chunk_list_length_iff {α : Type} (n : Nat) (hn : 0 < n) :
    ∀ (j : Nat) (lst : List α),
      j < (chunk_list lst n).length ↔ n * j < lst.length := by
  intro j
  induction j with
  | zero =>
    intro lst
    by_cases h : lst = []
    · subst h; simp [chunk_list_nil]
    · rw [chunk_list_cons lst n h (by omega)]
      have : 0 < lst.length := List.length_pos.mpr h
      simp
      omega
  | succ j ih =>
    intro lst
    by_cases h : lst = []
    · subst h; simp [chunk_list_nil]
    · rw [chunk_list_cons lst n h (by omega)]
      simp only [List.length_cons, Nat.add_lt_add_iff_right, Nat.succ_lt_succ_iff]
      rw [ih]
      simp only [List.length_drop, Nat.mul_succ]
      omega

theorem runChunks_length_aux (fetch : List String → Option JSON) :
    ∀ (m : Nat) (lst : List String), lst.length ≤ m →
      (runChunks fetch (chunk_list lst 30)).length = lst.length := by
  intro m
  induction m with
  | zero =>
    intro lst hm
    have : lst = [] := List.eq_nil_of_length_eq_zero (by omega)
    subst this
    simp [chunk_list_nil, runChunks]
  | succ m ih =>
    intro lst hm
    by_cases h : lst = []
    · subst h; simp [chunk_list_nil, runChunks]
    · rw [chunk_list_cons lst 30 h (by omega)]
      simp only [runChunks, List.length_append, getTokensInfo_length]
      rw [ih (lst.drop 30) (by simp [List.length_drop]; omega)]
      have : 0 < lst.length := List.length_pos.mpr h
      simp [List.length_take, List.length_drop]
      omega

theorem getInfoFromAddys_length (fetch : List String → Option JSON)
    (addys : List String) :
    (getInfoFromAddys fetch addys).length = addys.length :=
  runChunks_length_aux fetch addys.length addys (Nat.le_refl _)

theorem runChunks_getElem_aux (fetch : List String → Option JSON) :
    ∀ (m : Nat) (lst : List String) (i : Nat), lst.length ≤ m → i < lst.length →
      (runChunks fetch (chunk_list lst 30))[i]? =
        (getTokensInfo (chunkAt lst (i / 30)) (fetch (chunkAt lst (i / 30))))[i % 30]? := by
  intro m
  induction m with
  | zero => intro lst i hm hi; omega
  | succ m ih =>
    intro lst i hm hi
    have h : lst ≠ [] := by
      intro he
      subst he
      simp at hi
    rw [chunk_list_cons lst 30 h (by omega)]
    simp only [runChunks]
    have hlen : (getTokensInfo (lst.take 30) (fetch (lst.take 30))).length =
        min 30 lst.length := by
      rw [getTokensInfo_length]
      simp [List.length_take]
    by_cases hi30 : i < 30
    · have hidiv : i / 30 = 0 := Nat.div_eq_of_lt hi30
      have himod : i % 30 = i := Nat.mod_eq_of_lt hi30
      have hcz : chunkAt lst 0 = lst.take 30 := by
        unfold chunkAt
        rw [chunk_list_cons lst 30 h (by omega)]
        rfl
      rw [hidiv, himod, hcz]
      rw [List.getElem?_append_left (by omega)]
    · obtain ⟨k, rfl⟩ : ∃ k, i = 30 + k := ⟨i - 30, by omega⟩
      rw [List.getElem?_append_right (by omega)]
      have hk : (30 + k) - (getTokensInfo (lst.take 30) (fetch (lst.take 30))).length = k := by
        omega
      rw [hk]
      rw [ih (lst.drop 30) k (by simp [List.length_drop]; omega)
        (by simp [List.length_drop]; omega)]
      have hdiv : (30 + k) / 30 = k / 30 + 1 := by
        rw [Nat.add_comm 30 k, Nat.add_div_right _ (by omega)]
      have hmod : (30 + k) % 30 = k % 30 := Nat.add_mod_left 30 k
      have hcs : chunkAt lst (k / 30 + 1) = chunkAt (lst.drop 30) (k / 30) := by
        unfold chunkAt
        rw [chunk_list_cons lst 30 h (by omega)]
        rfl
      rw [hdiv, hmod, hcs]

/-- Position `i` of the merged refresh output is position `i % 30` of the
slice computed for the chunk containing `i`. -/
theorem getInfoFromAddys_getElem (fetch : List String → Option JSON)
    (addys : List String) (i : Nat) (hi : i < addys.length) :
    (getInfoFromAddys fetch addys)[i]? =
      (getTokensInfo (chunkAt addys (i / 30)) (fetch (chunkAt addys (i / 30))))[i % 30]? :=
  runChunks_getElem_aux fetch addys.length addys i (Nat.le_refl _) hi

/-- The chunk containing position `i` holds address `i` at offset `i % 30`. -/
theorem chunkAt_getElem (addys : List String) (i : Nat) (hi : i < addys.length) :
    (chunkAt addys (i / 30))[i % 30]? = addys[i]? := by
  unfold chunkAt
  rw [chunk_list_getD 30 (by omega)]
  have hmod : i % 30 < 30 := Nat.mod_lt _ (by omega)
  rw [List.getElem?_take_of_lt hmod, List.getElem?_drop]
  congr 1
  omega

theorem getTokensInfo_failed (tokens : List String) (resp : Option JSON)
    (h : batchFailed resp = true) :
    getTokensInfo tokens resp = List.replicate tokens.length none := by
  cases resp with
  | none => rfl
  | some d =>
    simp only [getTokensInfo]
    cases hp : pairsEntries d with
    | error e => simp
    | ok entries => simp [batchFailed, hp] at h

/-- C1: a full refresh cycle over any address list returns one entry per
address, in input order: the output has the input's length, position `i` of
the merged output is position `i % 30` of the batch computed for the chunk
containing `i`, and that chunk holds address `i` at exactly that offset (so
entry `i` — present or `none` placeholder — belongs to address `i`). -/
theorem refresh_output_aligned (fetch : List String → Option JSON)
    (addys : List String) :
    (getInfoFromAddys fetch addys).length = addys.length ∧
    ∀ i, i < addys.length →
      (getInfoFromAddys fetch addys)[i]? =
        (getTokensInfo (chunkAt addys (i / 30)) (fetch (chunkAt addys (i / 30))))[i % 30]? ∧
      (chunkAt addys (i / 30))[i % 30]? = addys[i]? :=
  ⟨getInfoFromAddys_length fetch addys,
   fun i hi => ⟨getInfoFromAddys_getElem fetch addys i hi, chunkAt_getElem addys i hi⟩⟩

/-- Concrete application of `refresh_output_aligned`: two addresses, both
lookups failing. -/
theorem refresh_output_aligned_witness :
    (getInfoFromAddys (fun _ => none) ["x", "y"])[1]? =
      (getTokensInfo (chunkAt ["x", "y"] (1 / 30))
        ((fun _ => none) (chunkAt ["x", "y"] (1 / 30))))[1 % 30]? ∧
    (chunkAt ["x", "y"] (1 / 30))[1 % 30]? = ["x", "y"][1]? :=
  (refresh_output_aligned (fun _ => none) ["x", "y"]).2 1 (by decide)

theorem chunkAt_length_le (addys : List String) (j : Nat) :
    (chunkAt addys j).length ≤ 30 := by
  unfold chunkAt
  rw [chunk_list_getD 30 (by omega)]
  simp [List.length_take]

theorem chunkAt_pos_lt (addys : List String) (j k : Nat)
    (hk : k < (chunkAt addys j).length) : 30 * j + k < addys.length := by
  unfold chunkAt at hk
  rw [chunk_list_getD 30 (by omega)] at hk
  simp only [List.length_take, List.length_drop] at hk
  omega

/-- C2: if a batch's remote lookup fails (no data, or a malformed top-level
payload), that chunk's slice of the merged output is entirely `none` and as
long as the chunk; and positions belonging to other chunks do not depend on
what the network returned for the failed chunk. -/
theorem failed_batch_slice (fetch fetch' : List String → Option JSON)
    (addys : List String) (j : Nat)
    (hfail : batchFailed (fetch (chunkAt addys j)) = true)
    (hagree : ∀ c, c ≠ chunkAt addys j → fetch' c = fetch c) :
    (∀ k, k < (chunkAt addys j).length →
      (getInfoFromAddys fetch addys)[30 * j + k]? = some none) ∧
    (∀ i, i < addys.length → chunkAt addys (i / 30) ≠ chunkAt addys j →
      (getInfoFromAddys fetch' addys)[i]? = (getInfoFromAddys fetch addys)[i]?) := by
  constructor
  · intro k hk
    have hk30 : k < 30 := Nat.lt_of_lt_of_le hk (chunkAt_length_le addys j)
    have hlt : 30 * j + k < addys.length := chunkAt_pos_lt addys j k hk
    rw [getInfoFromAddys_getElem fetch addys _ hlt]
    have hdiv : (30 * j + k) / 30 = j := by omega
    have hmod : (30 * j + k) % 30 = k := by omega
    rw [hdiv, hmod, getTokensInfo_failed _ _ hfail]
    simp [List.getElem?_replicate, hk]
  · intro i hi hne
    rw [getInfoFromAddys_getElem fetch addys i hi,
      getInfoFromAddys_getElem fetch' addys i hi, hagree _ hne]

/-- 31 addresses: one full chunk of 30 plus a second chunk `["b"]`. -/
def wAddys : List String := List.replicate 30 "a" ++ ["b"]

/-- An empty but well-formed payload. -/
def wEmptyPayload : JSON := JSON.obj [("pairs", JSON.arr [])]

/-- Network behaviour whose lookup for the chunk `["b"]` fails. -/
def wFetchFail : List String → Option JSON :=
  fun c => if c = ["b"] then none else some wEmptyPayload

/-- Network behaviour that answers every chunk. -/
def wFetchOk : List String → Option JSON :=
  fun _ => some wEmptyPayload

/-- Concrete application of `failed_batch_slice`: with the second chunk's
lookup failing, its first output slot is an absent placeholder, and the
first chunk's slots are independent of that chunk's response. -/
theorem failed_batch_slice_witness :
    (getInfoFromAddys wFetchFail wAddys)[30 * 1 + 0]? = some none ∧
    (getInfoFromAddys wFetchOk wAddys)[0]? = (getInfoFromAddys wFetchFail wAddys)[0]? := by
  have hb : chunkAt wAddys 1 = ["b"] := by with_unfolding_all rfl
  have hmain := failed_batch_slice wFetchFail wFetchOk wAddys 1
    (by rw [hb]; with_unfolding_all rfl)
    (by
      intro c hc
      rw [hb] at hc
      simp only [wFetchFail, wFetchOk, if_neg hc])
  refine ⟨hmain.1 0 (by rw [hb]; decide), hmain.2 0 (by decide) ?_⟩
  rw [hb]
  have h0 : chunkAt wAddys (0 / 30) = List.replicate 30 "a" := by with_unfolding_all rfl
  rw [h0]
  decide

/-- The value the per-token loop contributes for one address when its own
processing raises nothing uncaught. -/
def processedOf (entries : List (String × JSON)) (t : String) : Option TokenInfo :=
  match processToken entries t with
  | .ok r => r
  | .error _ => none

theorem processAll_ok_map (entries : List (String × JSON)) :
    ∀ (tokens : List String),
      (∀ t ∈ tokens, ∃ r, processToken entries t = .ok r) →
      processAll entries tokens = .ok (tokens.map (processedOf entries)) := by
  intro tokens
  induction tokens with
  | nil => intro h; rfl
  | cons t ts ih =>
    intro h
    obtain ⟨r, hr⟩ := h t (List.mem_cons_self t ts)
    have hrest := ih (fun u hu => h u (List.mem_cons_of_mem t hu))
    simp only [processAll, hr, hrest, List.map_cons]
    have hpt : processedOf entries t = r := by simp [processedOf, hr]
    rw [hpt]

theorem getTokensInfo_ok_map (tokens : List String) (d : JSON)
    (entries : List (String × JSON)) (hent : pairsEntries d = .ok entries)
    (hok : ∀ t ∈ tokens, ∃ r, processToken entries t = .ok r) :
    getTokensInfo tokens (some d) = tokens.map (processedOf entries) := by
  simp only [getTokensInfo, hent, processAll_ok_map entries tokens hok]

/-- C3 (amended): when the matched pair of address `i` fails with a missing
field (`KeyError`) or a failed numeric parse of a *string* value
(`ValueError`), address `i`'s slot is absent and every other slot is that
address's own per-token result — provided no address of the batch raises an
exception outside those two (`hok`). A required field holding a non-string,
non-numeric value such as `null` raises `TypeError` instead, which the
per-token handler does not catch, and the whole batch is blanked (see the
counterexample). -/
theorem field_failure_scoped (d : JSON) (entries : List (String × JSON))
    (tokens : List String) (i : Nat) (pair : JSON) (e : PyErr)
    (hent : pairsEntries d = .ok entries)
    (hok : ∀ t ∈ tokens, ∃ r, processToken entries t = .ok r)
    (hi : i < tokens.length)
    (hpair : lookupLast entries (strLower (tokens.getD i "")) = some pair)
    (hfail : tokenBody pair = .error e)
    (he : e = .keyError ∨ e = .valueError) :
    (getTokensInfo tokens (some d))[i]? = some none ∧
    ∀ j, j < tokens.length →
      (getTokensInfo tokens (some d))[j]? =
        some (processedOf entries (tokens.getD j "")) := by
  have hmap := getTokensInfo_ok_map tokens d entries hent hok
  have hall : ∀ j, j < tokens.length →
      (getTokensInfo tokens (some d))[j]? =
        some (processedOf entries (tokens.getD j "")) := by
    intro j hj
    rw [hmap, List.getElem?_map, List.getElem?_eq_getElem hj]
    simp only [Option.map_some']
    rw [List.getD_eq_getElem tokens "" hj]
  have hnone : processedOf entries (tokens.getD i "") = none := by
    unfold processedOf processToken
    simp only [hpair, hfail]
    rcases he with rfl | rfl <;> rfl
  exact ⟨by rw [hall i hi, hnone], hall⟩

/-- A complete pair entry for address `b`. -/
def cxPairB : JSON :=
  .obj [("baseToken", .obj [("address", .str "b"), ("symbol", .str "BBB")]),
        ("priceUsd", .str "1.5"), ("url", .str "u"), ("fdv", .num 2000000)]

/-- Address `a`'s pair with `priceUsd` present but `null` — a non-numeric
value in a field where a number is expected. -/
def cxPairANull : JSON :=
  .obj [("baseToken", .obj [("address", .str "a"), ("symbol", .str "AAA")]),
        ("priceUsd", .null), ("url", .str "u"), ("fdv", .num 1000000)]

/-- Address `a`'s pair with a parseable `priceUsd`. -/
def cxPairAGood : JSON :=
  .obj [("baseToken", .obj [("address", .str "a"), ("symbol", .str "AAA")]),
        ("priceUsd", .str "2.0"), ("url", .str "u"), ("fdv", .num 1000000)]

/-- Payload pairing `cxPairANull` with the intact `cxPairB`. -/
def cxBadPayload : JSON := .obj [("pairs", .arr [cxPairANull, cxPairB])]

/-- The same payload with only `a`'s `priceUsd` repaired. -/
def cxGoodPayload : JSON := .obj [("pairs", .arr [cxPairAGood, cxPairB])]

/-- C3 counterexample: address `b`'s pair is identical in both payloads, yet
its record exists only when sibling `a`'s `priceUsd` parses. With
`priceUsd: null` on `a` — a non-numeric value where a number is expected —
`float(None)` raises `TypeError`, which `except (KeyError, ValueError)` does
not catch; the batch-level handler replaces the whole batch with `None`
placeholders, so `b`'s slot is absent too. The claim's "the records of the
other addresses in the same batch are unaffected" fails. -/
theorem field_failure_scope_cex :
    ((getTokensInfo ["a", "b"] (some cxBadPayload)).getD 1 none).isSome = false ∧
    ((getTokensInfo ["a", "b"] (some cxGoodPayload)).getD 1 none).isSome = true := by
  constructor <;> with_unfolding_all rfl

/-- Address `a`'s pair missing the required `url` field (`KeyError`). -/
def cxPairAMiss : JSON :=
  .obj [("baseToken", .obj [("address", .str "a"), ("symbol", .str "AAA")]),
        ("priceUsd", .str "2.0"), ("fdv", .num 1000000)]

/-- Payload pairing `cxPairAMiss` with the intact `cxPairB`. -/
def cxMissPayload : JSON := .obj [("pairs", .arr [cxPairAMiss, cxPairB])]

/-- The address map `cxMissPayload` builds. -/
def cxMissEntries : List (String × JSON) := [("a", cxPairAMiss), ("b", cxPairB)]

/-- Concrete application of `field_failure_scoped`: `a` lacks `url`, so slot
0 is absent while slot 1 is `b`'s own result. -/
theorem field_failure_scoped_witness :
    (getTokensInfo ["a", "b"] (some cxMissPayload))[0]? = some none ∧
    (getTokensInfo ["a", "b"] (some cxMissPayload))[1]? =
      some (processedOf cxMissEntries (["a", "b"].getD 1 "")) := by
  have h := field_failure_scoped cxMissPayload cxMissEntries ["a", "b"] 0
    cxPairAMiss .keyError
    (by with_unfolding_all rfl)
    (by
      intro t ht
      simp only [List.mem_cons, List.not_mem_nil, or_false] at ht
      rcases ht with rfl | rfl
      · exact ⟨none, by with_unfolding_all rfl⟩
      · exact ⟨_, by with_unfolding_all rfl⟩)
    (by decide)
    (by with_unfolding_all rfl)
    (by with_unfolding_all rfl)
    (Or.inl rfl)
  exact ⟨h.1, h.2 1 (by decide)⟩

/-- C4: with the required fields extracted (`hreq`) and a `priceChange` dict
present, a missing `h1` sub-field defaults to `'0'` on its own: the record
is still produced (not dropped), its `1h` entry is `"0"` — which renders as
the numeric zero `+0.00%` — and the `24h`/`5m` entries carry their present
source values unchanged. -/
theorem change_defaults_independent (fields pcf : List (String × JSON))
    (v24 v5 : JSON) (q : JSON × PyFloat × JSON × String)
    (hreq : requiredInfo (.obj fields) = .ok q)
    (hpc : lookupLast fields "priceChange" = some (.obj pcf))
    (h1 : lookupLast pcf "h1" = none)
    (h24 : lookupLast pcf "h24" = some v24)
    (h5 : lookupLast pcf "m5" = some v5) :
    tokenBody (.obj fields) =
      .ok ⟨q.1, q.2.1, q.2.2.1, q.2.2.2,
           [("24h", pyStr v24), ("1h", "0"), ("5m", pyStr v5)]⟩ ∧
    changeCell "0" = ("+0.00%", .colorPair COLOR_GREEN) := by
  obtain ⟨s, p, u, f⟩ := q
  constructor
  · unfold tokenBody changeEntries
    simp only [hreq, hpc, h1, h24, h5]
    rfl
  · with_unfolding_all rfl

/-- A pair whose `priceChange` dict has `h24` and `m5` but no `h1`. -/
def c4Fields : List (String × JSON) :=
  [("baseToken", .obj [("address", .str "a"), ("symbol", .str "TKN")]),
   ("priceUsd", .str "1.0"), ("url", .str "u"), ("fdv", .num 1000000),
   ("priceChange", .obj [("h24", .str "5.5"), ("m5", .str "-1.2")])]

/-- The `priceChange` sub-dict of `c4Fields`. -/
def c4Pcf : List (String × JSON) := [("h24", .str "5.5"), ("m5", .str "-1.2")]

/-- Concrete application of `change_defaults_independent`. -/
theorem change_defaults_independent_witness :
    tokenBody (.obj c4Fields) =
      .ok ⟨.str "TKN", .finite 1, .str "u", "$1.0M",
           [("24h", pyStr (.str "5.5")), ("1h", "0"), ("5m", pyStr (.str "-1.2"))]⟩ ∧
    changeCell "0" = ("+0.00%", .colorPair COLOR_GREEN) :=
  change_defaults_independent c4Fields c4Pcf (.str "5.5") (.str "-1.2")
    (.str "TKN", .finite 1, .str "u", "$1.0M") (by with_unfolding_all rfl)
    (by with_unfolding_all rfl) (by with_unfolding_all rfl)
    (by with_unfolding_all rfl) (by with_unfolding_all rfl)

/-- C6: for every terminal width, the six scaled column widths are
non-negative, their sum never exceeds the width, and each width is
monotone in the width. -/
theorem colWidths_bounds (w w' : Nat) (hww : w ≤ w') :
    (∀ x ∈ getColW w, 0 ≤ x) ∧
    (getColW w).sum ≤ w ∧
    (∀ k, (getColW w).getD k 0 ≤ (getColW w').getD k 0) := by
  refine ⟨fun x _ => Nat.zero_le x, ?_, ?_⟩
  · simp only [getColW, List.map_cons, List.map_nil, List.sum_cons, List.sum_nil]
    have h1 : 10 * w / 50 * 50 ≤ 10 * w := Nat.div_mul_le_self _ _
    have h2 : 12 * w / 50 * 50 ≤ 12 * w := Nat.div_mul_le_self _ _
    have h3 : 6 * w / 50 * 50 ≤ 6 * w := Nat.div_mul_le_self _ _
    omega
  · intro k
    have hmono : ∀ b : Nat, b * w / 50 ≤ b * w' / 50 :=
      fun b => Nat.div_le_div_right (Nat.mul_le_mul_left b hww)
    match k with
    | 0 => exact hmono 10
    | 1 => exact hmono 10
    | 2 => exact hmono 12
    | 3 => exact hmono 6
    | 4 => exact hmono 6
    | 5 => exact hmono 6
    | n + 6 => simp [getColW]

/-- Concrete application of `colWidths_bounds` at widths 47 and 80. -/
theorem colWidths_bounds_witness :
    (getColW 47).sum ≤ 47 ∧ (getColW 47).getD 2 0 ≤ (getColW 80).getD 2 0 :=
  ⟨(colWidths_bounds 47 80 (by decide)).2.1,
   (colWidths_bounds 47 80 (by decide)).2.2 2⟩

theorem getInfo_allNone (fetch : List String → Option JSON)
    (hfail : ∀ c, fetch c = none) (addys : List String) :
    getInfoFromAddys fetch addys = List.replicate addys.length none := by
  have hlen := getInfoFromAddys_length fetch addys
  have hmem : ∀ x ∈ getInfoFromAddys fetch addys, x = none := by
    unfold getInfoFromAddys
    generalize chunk_list addys 30 = cs
    intro x hx
    induction cs with
    | nil => simp [runChunks] at hx
    | cons c cs ih =>
      simp only [runChunks, List.mem_append] at hx
      rcases hx with hx | hx
      · rw [hfail c] at hx
        simp only [getTokensInfo] at hx
        exact List.eq_of_mem_replicate hx
      · exact ih hx
  exact List.eq_replicate_iff.mpr ⟨hlen, hmem⟩

/-- C9: every refresh cycle ends in a publication that replaces the slot
with that cycle's complete output — also when every chunk failed, in which
case the all-absent list is published rather than the old snapshot being
retained — and every value the slot can hold (hence every value a reader
passes to the renderer) is the initial empty list or exactly one cycle's
complete output, never a mixture of two cycles. -/
theorem snapshot_publish_consistent (fetchSeq : Nat → List String → Option JSON)
    (addys : List String) (k : Nat) (d : List (Option TokenInfo))
    (h : SnapshotReachable fetchSeq addys k d) :
    (d = [] ∨ ∃ j, j < k ∧ d = cycleSnap fetchSeq addys j) ∧
    (∀ m, publishStep (some (cycleSnap fetchSeq addys m)) d =
      cycleSnap fetchSeq addys m) ∧
    ((∀ c, fetchSeq k c = none) →
      publishStep (some (cycleSnap fetchSeq addys k)) d =
        List.replicate addys.length none) := by
  refine ⟨?_, fun m => rfl, fun hfail => ?_⟩
  · induction h with
    | init => exact Or.inl rfl
    | publish hprev ih => exact Or.inr ⟨_, Nat.lt_succ_self _, rfl⟩
  · show cycleSnap fetchSeq addys k = _
    unfold cycleSnap
    exact getInfo_allNone _ hfail addys

/-- A network that fails every lookup, for the C9 witness. -/
def c9Fetch : Nat → List String → Option JSON := fun _ _ => none

/-- The single-address list of the C9 witness. -/
def c9Addys : List String := ["a"]

/-- Concrete application of `snapshot_publish_consistent` after one
publication: the next publish replaces the slot, and a fully failed cycle
publishes the all-absent list. -/
theorem snapshot_publish_consistent_witness :
    publishStep (some (cycleSnap c9Fetch c9Addys 1))
        (publishStep (some (cycleSnap c9Fetch c9Addys 0)) []) =
      cycleSnap c9Fetch c9Addys 1 ∧
    publishStep (some (cycleSnap c9Fetch c9Addys 1))
        (publishStep (some (cycleSnap c9Fetch c9Addys 0)) []) =
      List.replicate c9Addys.length none := by
  have h := snapshot_publish_consistent c9Fetch c9Addys 1 _
    (SnapshotReachable.publish SnapshotReachable.init)
  exact ⟨h.2.1 1, h.2.2 (fun c => rfl)⟩

theorem tokenBody_priceChange (pair : JSON) (info : TokenInfo)
    (h : tokenBody pair = .ok info) :
    changeEntries pair = .ok info.priceChange := by
  unfold tokenBody at h
  cases hreq : requiredInfo pair with
  | error e => simp [hreq] at h
  | ok q =>
    obtain ⟨s, p, u, f⟩ := q
    simp only [hreq] at h
    cases hch : changeEntries pair with
    | error e => simp [hch] at h
    | ok pc =>
      simp only [hch] at h
      injection h with h1
      subst h1
      rfl

theorem changeEntries_keys (pair : JSON) (pc : List (String × String))
    (h : changeEntries pair = .ok pc) :
    pc.map Prod.fst = ["24h", "1h", "5m"] := by
  unfold changeEntries at h
  cases pair with
  | obj fields =>
    cases hl : lookupLast fields "priceChange" with
    | none =>
      simp only [hl] at h
      injection h with h1
      subst h1
      rfl
    | some pcj =>
      cases pcj with
      | obj pcf =>
        simp only [hl] at h
        injection h with h1
        subst h1
        rfl
      | null => simp [hl] at h
      | bool b => simp [hl] at h
      | num q => simp [hl] at h
      | str s => simp [hl] at h
      | arr xs => simp [hl] at h
  | null => injection h with h1; subst h1; rfl
  | bool b => injection h with h1; subst h1; rfl
  | num q => injection h with h1; subst h1; rfl
  | str s => injection h with h1; subst h1; rfl
  | arr xs => injection h with h1; subst h1; rfl

/-- C10: every normalized record's `priceChange` has exactly the keys
`24h`, `1h`, `5m` (string values by construction); a sub-field present in
the source dict is carried through as its `str` image even when it is not a
valid number; and the defaulting of unparsable values to `0.00%` happens in
the renderer, not at normalization. -/
theorem normalized_change_shape (pair : JSON) (info : TokenInfo)
    (h : tokenBody pair = .ok info) :
    info.priceChange.map Prod.fst = ["24h", "1h", "5m"] ∧
    (∀ fields pcf v, pair = JSON.obj fields →
      lookupLast fields "priceChange" = some (JSON.obj pcf) →
      lookupLast pcf "h24" = some v →
      lookupLast info.priceChange "24h" = some (pyStr v)) ∧
    (∀ s, pyParseFloat s = none → changeCell s = ("0.00%", Attr.default)) := by
  have hch := tokenBody_priceChange pair info h
  refine ⟨changeEntries_keys pair info.priceChange hch, ?_, ?_⟩
  · intro fields pcf v heq hpcf hv
    subst heq
    unfold changeEntries at hch
    simp only [hpcf] at hch
    injection hch with h1
    rw [← h1, hv]
    simp only [Option.getD_some]
    with_unfolding_all rfl
  · intro s hs
    simp only [changeCell, hs]

/-- A pair whose `h24` change is present but not a number. -/
def c10Pair : JSON :=
  .obj [("baseToken", .obj [("address", .str "a"), ("symbol", .str "TKN")]),
        ("priceUsd", .str "1.0"), ("url", .str "u"), ("fdv", .num 1000000),
        ("priceChange", .obj [("h24", .str "wild")])]

/-- The record `tokenBody` produces for `c10Pair`. -/
def c10Info : TokenInfo :=
  ⟨.str "TKN", .finite 1, .str "u", "$1.0M", [("24h", "wild"), ("1h", "0"), ("5m", "0")]⟩

/-- Concrete application of `normalized_change_shape`: the non-numeric
`"wild"` is stored verbatim and only the renderer turns it into `0.00%`. -/
theorem normalized_change_shape_witness :
    c10Info.priceChange.map Prod.fst = ["24h", "1h", "5m"] ∧
    lookupLast c10Info.priceChange "24h" = some (pyStr (.str "wild")) ∧
    changeCell "wild" = ("0.00%", Attr.default) := by
  have h := normalized_change_shape c10Pair c10Info (by with_unfolding_all rfl)
  exact ⟨h.1,
    h.2.1 _ _ (.str "wild") (by with_unfolding_all rfl)
      (by with_unfolding_all rfl) (by with_unfolding_all rfl),
    h.2.2 "wild" (by with_unfolding_all rfl)⟩

theorem except_bind_ok {α β : Type} (r : Except Unit α) (f : α → Except Unit β)
    (b : β) (h : r.bind f = .ok b) : ∃ a, r = .ok a ∧ f a = .ok b := by
  cases r with
  | error e => simp [Except.bind] at h
  | ok a => exact ⟨a, rfl, h⟩

theorem addstrE_ok {hh ww : Nat} {log : List Write} {y x : Int} {s : String}
    {a : Attr} {l : List Write} (h : addstrE hh ww log y x s a = .ok l) :
    l = log ++ [⟨y, x, s, a⟩] := by
  unfold addstrE at h
  split at h
  · cases h
  · injection h with h1
    exact h1.symm

/-- Whenever `drawRow` completes, it has written the six cells of the row at
columns `cellOffset ww 0 … cellOffset ww 5`, whatever the record holds. -/
theorem drawRow_shape (hh ww : Nat) (row : Int) (t : TokenInfo)
    (log lg : List Write) (h : drawRow hh ww row t log = .ok lg) :
    ∃ s0 c24 c1 c5,
      lg = log ++
        [⟨row, cellOffset ww 0, s0, .default⟩,
         ⟨row, cellOffset ww 1, t.fdv, .default⟩,
         ⟨row, cellOffset ww 2, "$" ++ formatFloat 8 t.priceUsd, .default⟩,
         ⟨row, cellOffset ww 3, (changeCell c24).1, (changeCell c24).2⟩,
         ⟨row, cellOffset ww 4, (changeCell c1).1, (changeCell c1).2⟩,
         ⟨row, cellOffset ww 5, (changeCell c5).1, (changeCell c5).2⟩] := by
  unfold drawRow at h
  obtain ⟨sym, hsym, h⟩ := except_bind_ok _ _ _ h
  obtain ⟨l1, ha1, h⟩ := except_bind_ok _ _ _ h
  obtain ⟨l2, ha2, h⟩ := except_bind_ok _ _ _ h
  obtain ⟨l3, ha3, h⟩ := except_bind_ok _ _ _ h
  obtain ⟨c24, hc24, h⟩ := except_bind_ok _ _ _ h
  obtain ⟨c1, hc1, h⟩ := except_bind_ok _ _ _ h
  obtain ⟨c5, hc5, h⟩ := except_bind_ok _ _ _ h
  obtain ⟨l4, ha4, h⟩ := except_bind_ok _ _ _ h
  obtain ⟨l5, ha5, h⟩ := except_bind_ok _ _ _ h
  have e1 := addstrE_ok ha1
  have e2 := addstrE_ok ha2
  have e3 := addstrE_ok ha3
  have e4 := addstrE_ok ha4
  have e5 := addstrE_ok ha5
  have efin := addstrE_ok h
  subst e1 e2 e3 e4 e5 efin
  refine ⟨sym, c24, c1, c5, ?_⟩
  simp only [List.append_assoc, List.singleton_append, List.cons_append,
    List.nil_append]
  refine congrArg (fun z => log ++ z) ?_
  simp only [List.cons.injEq, Write.mk.injEq, eq_self_iff_true, if_true,
    and_true, true_and]
  refine ⟨?_, ?_, ?_, ?_, ?_, ?_⟩
  · simp [cellOffset]
  · simp [cellOffset, getColW]
  · simp [cellOffset, getColW]
    omega
  · simp [cellOffset, getColW]
    omega
  · simp [cellOffset, getColW]
    omega
  · by_cases hcc : c1 = c24 <;> simp [hcc, cellOffset, getColW] <;> omega

/-- Whenever `drawHeader` completes, the six labels sit at the same columns
`cellOffset ww 0 … cellOffset ww 5` as the data cells. -/
theorem drawHeader_shape (hh ww : Nat) (log lg : List Write)
    (h : drawHeader hh ww log = .ok lg) :
    ∃ tp, lg = log ++
      ⟨1, tp, "Dexscreener-TUI", .default⟩ ::
      [⟨3, cellOffset ww 0, strTake "$TOKEN" ((getColW ww).getD 0 0), .default⟩,
       ⟨3, cellOffset ww 1, strTake "FDV" ((getColW ww).getD 1 0), .default⟩,
       ⟨3, cellOffset ww 2, strTake "PRICE(USD)" ((getColW ww).getD 2 0), .default⟩,
       ⟨3, cellOffset ww 3, strTake "24h" ((getColW ww).getD 3 0), .default⟩,
       ⟨3, cellOffset ww 4, strTake "1h" ((getColW ww).getD 4 0), .default⟩,
       ⟨3, cellOffset ww 5, strTake "5m" ((getColW ww).getD 5 0), .default⟩] := by
  unfold drawHeader at h
  obtain ⟨l0, ht, h⟩ := except_bind_ok _ _ _ h
  have hcw : getColW ww =
      [10 * ww / 50, 10 * ww / 50, 12 * ww / 50, 6 * ww / 50, 6 * ww / 50, 6 * ww / 50] := by
    simp [getColW]
  rw [hcw] at h
  simp only [headersList] at h
  simp only [drawHeaderCells] at h
  obtain ⟨m1, hb1, h⟩ := except_bind_ok _ _ _ h
  obtain ⟨m2, hb2, h⟩ := except_bind_ok _ _ _ h
  obtain ⟨m3, hb3, h⟩ := except_bind_ok _ _ _ h
  obtain ⟨m4, hb4, h⟩ := except_bind_ok _ _ _ h
  obtain ⟨m5, hb5, h⟩ := except_bind_ok _ _ _ h
  obtain ⟨m6, hb6, h⟩ := except_bind_ok _ _ _ h
  injection h with hlg
  subst hlg
  have e0 := addstrE_ok ht
  have f1 := addstrE_ok hb1
  have f2 := addstrE_ok hb2
  have f3 := addstrE_ok hb3
  have f4 := addstrE_ok hb4
  have f5 := addstrE_ok hb5
  have f6 := addstrE_ok hb6
  subst e0 f1 f2 f3 f4 f5 f6
  refine ⟨((ww : Int) - ("Dexscreener-TUI" : String).length).fdiv 2, ?_⟩
  simp only [List.append_assoc, List.singleton_append, List.cons_append,
    List.nil_append]
  refine congrArg (fun z => log ++ z) ?_
  simp only [List.cons.injEq, Write.mk.injEq, hcw, and_true, true_and]
  refine ⟨?_, ?_, ?_, ?_, ?_, ?_⟩
  · simp [cellOffset]
  · simp [cellOffset, getColW]
  · simp [cellOffset, getColW]
    omega
  · simp [cellOffset, getColW]
    omega
  · simp [cellOffset, getColW]
    omega
  · simp [cellOffset, getColW]
    omega

/-- C7: in any drawn data row the cell of column `k` (ticker, FDV, price,
24h, 1h, 5m) starts at `cellOffset ww k` — 3 plus the sum of the first `k`
scaled column widths — the same column where `drawHeader` puts the `k`-th
label, whatever values the record holds (the value-equality tests in the
width lookup of line 184 select among the equal widths 3, 4 and 5, so the
offsets do not shift). -/
theorem row_header_alignment (hh ww : Nat) (row : Int) (t : TokenInfo)
    (rlog rlg hlog hlg : List Write)
    (hrow : drawRow hh ww row t rlog = .ok rlg)
    (hhdr : drawHeader hh ww hlog = .ok hlg) :
    (∃ s0 c24 c1 c5,
      rlg = rlog ++
        [⟨row, cellOffset ww 0, s0, .default⟩,
         ⟨row, cellOffset ww 1, t.fdv, .default⟩,
         ⟨row, cellOffset ww 2, "$" ++ formatFloat 8 t.priceUsd, .default⟩,
         ⟨row, cellOffset ww 3, (changeCell c24).1, (changeCell c24).2⟩,
         ⟨row, cellOffset ww 4, (changeCell c1).1, (changeCell c1).2⟩,
         ⟨row, cellOffset ww 5, (changeCell c5).1, (changeCell c5).2⟩]) ∧
    (∃ tp, hlg = hlog ++
      ⟨1, tp, "Dexscreener-TUI", .default⟩ ::
      [⟨3, cellOffset ww 0, strTake "$TOKEN" ((getColW ww).getD 0 0), .default⟩,
       ⟨3, cellOffset ww 1, strTake "FDV" ((getColW ww).getD 1 0), .default⟩,
       ⟨3, cellOffset ww 2, strTake "PRICE(USD)" ((getColW ww).getD 2 0), .default⟩,
       ⟨3, cellOffset ww 3, strTake "24h" ((getColW ww).getD 3 0), .default⟩,
       ⟨3, cellOffset ww 4, strTake "1h" ((getColW ww).getD 4 0), .default⟩,
       ⟨3, cellOffset ww 5, strTake "5m" ((getColW ww).getD 5 0), .default⟩]) :=
  ⟨drawRow_shape hh ww row t rlog rlg hrow, drawHeader_shape hh ww hlog hlg hhdr⟩

/-- A fully populated record, including equal change values to exercise the
value-equality branch of the width lookup. -/
def c7Rec : TokenInfo :=
  ⟨.str "AAA", .finite (3/2), .str "u", "$2.0M", [("24h", "1.0"), ("1h", "1.0"), ("5m", "0")]⟩

/-- Concrete application of `row_header_alignment` on an 80×24 terminal. -/
theorem row_header_alignment_witness :
    ∃ rlg hlg,
      drawRow 24 80 4 c7Rec [] = .ok rlg ∧
      drawHeader 24 80 [] = .ok hlg ∧
      ((∃ s0 c24 c1 c5,
        rlg = [] ++
          [⟨4, cellOffset 80 0, s0, .default⟩,
           ⟨4, cellOffset 80 1, c7Rec.fdv, .default⟩,
           ⟨4, cellOffset 80 2, "$" ++ formatFloat 8 c7Rec.priceUsd, .default⟩,
           ⟨4, cellOffset 80 3, (changeCell c24).1, (changeCell c24).2⟩,
           ⟨4, cellOffset 80 4, (changeCell c1).1, (changeCell c1).2⟩,
           ⟨4, cellOffset 80 5, (changeCell c5).1, (changeCell c5).2⟩]) ∧
      (∃ tp, hlg = [] ++
        ⟨1, tp, "Dexscreener-TUI", .default⟩ ::
        [⟨3, cellOffset 80 0, strTake "$TOKEN" ((getColW 80).getD 0 0), .default⟩,
         ⟨3, cellOffset 80 1, strTake "FDV" ((getColW 80).getD 1 0), .default⟩,
         ⟨3, cellOffset 80 2, strTake "PRICE(USD)" ((getColW 80).getD 2 0), .default⟩,
         ⟨3, cellOffset 80 3, strTake "24h" ((getColW 80).getD 3 0), .default⟩,
         ⟨3, cellOffset 80 4, strTake "1h" ((getColW 80).getD 4 0), .default⟩,
         ⟨3, cellOffset 80 5, strTake "5m" ((getColW 80).getD 5 0), .default⟩])) := by
  obtain ⟨rlg, hrow⟩ : ∃ rlg, drawRow 24 80 4 c7Rec [] = .ok rlg :=
    ⟨_, by with_unfolding_all rfl⟩
  obtain ⟨hlg, hhdr⟩ : ∃ hlg, drawHeader 24 80 [] = .ok hlg :=
    ⟨_, by with_unfolding_all rfl⟩
  exact ⟨rlg, hlg, hrow, hhdr,
    row_header_alignment 24 80 4 c7Rec [] rlg [] hlg hrow hhdr⟩

theorem digitChar_isDigit : ∀ m : Nat, m < 10 → (Nat.digitChar m).isDigit = true := by
  decide

/-- `f"{q:+.2f}"` always yields an explicit sign, an integer part, a point
and exactly two decimal digits. -/
theorem formatSigned2_shape (q : Rat) :
    ∃ ip d1 d2,
      formatSigned2 q = (if 0 ≤ q then "+" else "-") ++ ip ++ "." ++ String.mk [d1, d2] ∧
      d1.isDigit = true ∧ d2.isDigit = true := by
  refine ⟨toString (roundHalfUp (|q| * 100) / 100),
    Nat.digitChar (roundHalfUp (|q| * 100) % 100 / 10 % 10),
    Nat.digitChar (roundHalfUp (|q| * 100) % 100 % 10), rfl, ?_, ?_⟩
  · exact digitChar_isDigit _ (Nat.mod_lt _ (by omega))
  · exact digitChar_isDigit _ (Nat.mod_lt _ (by omega))

/-- C8 counterexample: Python `float()` accepts the spelling `"inf"`, so a
stored change string `"inf"` does not fail the parse. Line 181 then renders
`f"{value:+.2f}%"`, which for an infinity is `+inf%` — an explicit sign but
no decimal point, hence no two decimal places — colored green (`inf >= 0`),
not the `0.00%` default the claim assigns to everything non-numeric.
Likewise `"nan"` renders `+nan%` in red (`nan >= 0` is false). The claim's
"formatted with an explicit sign and two decimal places" is false of the
code on these reachable inputs. -/
theorem change_cell_format_cex :
    changeCell "inf" = ("+inf%", Attr.colorPair COLOR_GREEN) ∧
    ((changeCell "inf").1.data.contains '.') = false ∧
    changeCell "nan" = ("+nan%", Attr.colorPair COLOR_RED) := by
  refine ⟨?_, ?_, ?_⟩ <;> with_unfolding_all rfl

/-- C8 (amended): a change cell whose stored string parses to a finite
value is formatted with an explicit sign and two decimal places and a `%`
suffix, colored with the green pair when the value is non-negative and the
red pair when it is negative; the special spellings `float()` accepts
render as `+inf%`, `-inf%` or `+nan%` (infinities colored by their sign,
NaN red, since `nan >= 0` is false); a string that fails the numeric parse
renders as the literal `0.00%` in the default style instead of raising. -/
theorem change_cell_format (s : String) :
    (pyParseFloat s = none → changeCell s = ("0.00%", Attr.default)) ∧
    (∀ q, pyParseFloat s = some (PyFloat.finite q) →
      (∃ ip d1 d2, (changeCell s).1 =
          (if 0 ≤ q then "+" else "-") ++ ip ++ "." ++ String.mk [d1, d2] ++ "%" ∧
          d1.isDigit = true ∧ d2.isDigit = true) ∧
      (changeCell s).2 = Attr.colorPair (if 0 ≤ q then COLOR_GREEN else COLOR_RED)) ∧
    (pyParseFloat s = some PyFloat.posInf →
      changeCell s = ("+inf%", Attr.colorPair COLOR_GREEN)) ∧
    (pyParseFloat s = some PyFloat.negInf →
      changeCell s = ("-inf%", Attr.colorPair COLOR_RED)) ∧
    (pyParseFloat s = some PyFloat.nan →
      changeCell s = ("+nan%", Attr.colorPair COLOR_RED)) := by
  refine ⟨?_, ?_, ?_, ?_, ?_⟩
  · intro hs
    simp only [changeCell, hs]
  · intro q hq
    obtain ⟨ip, d1, d2, hfmt, hd1, hd2⟩ := formatSigned2_shape q
    refine ⟨⟨ip, d1, d2, ?_, hd1, hd2⟩, ?_⟩
    · simp only [changeCell, hq, formatSignedF, hfmt]
    · simp only [changeCell, hq, pyGe0, decide_eq_true_eq]
  · intro hs
    simp only [changeCell, hs]
    rfl
  · intro hs
    simp only [changeCell, hs]
    rfl
  · intro hs
    simp only [changeCell, hs]
    rfl

/-- Concrete applications of `change_cell_format`: an unparsable cell, a
negative finite cell, and an infinite cell. -/
theorem change_cell_format_witness :
    changeCell "oops" = ("0.00%", Attr.default) ∧
    (changeCell "-3.456").2 =
      Attr.colorPair (if (0 : Rat) ≤ -432 / 125 then COLOR_GREEN else COLOR_RED) ∧
    changeCell "inf" = ("+inf%", Attr.colorPair COLOR_GREEN) :=
  ⟨(change_cell_format "oops").1 (by with_unfolding_all rfl),
   ((change_cell_format "-3.456").2.1 (-432 / 125) (by with_unfolding_all rfl)).2,
   (change_cell_format "inf").2.2.1 (by with_unfolding_all rfl)⟩

/-- C5 fails on the code: on a 24-row, 10-column terminal the unguarded
bottom-line write of `drawFrame` (line 136) runs into the bottom-right cell
and `curses.error` escapes the whole draw path — only the single corner
write of lines 137-140 is inside a `try/except`. In `main`, the periodic
`updateScreen(stdscr, data)` call (line 222) sits outside the loop's
`try/except`, so the escaped error crashes the program instead of
truncating. -/
theorem render_bounds_crash : updateScreen 24 10 [] = .error () := by
  with_unfolding_all rfl
